import Mathlib

/-!
Shallow embedding of the Quickread backend (document extraction dispatch,
LLM answer service, JSON-on-disk document store) together with proofs of
the specified properties.

External libraries used by the Python source (PyPDF2, python-docx, openpyxl,
zipfile) are modelled as oracle functions packaged in `ExternalLibs`: each
oracle returns the parsed shape of the byte buffer (pages, paragraphs/tables,
sheets, archive entries) or a parse failure.  Everything the repository
itself computes on top of those parses is embedded concretely.

Bytes are modelled as `List Nat` (each entry < 256 in practice), Python
strings as Lean `String`/`List Char` (Python code points = Lean chars for
the ASCII/BMP data involved).  Python `raise` is modelled with `Except`.
-/

namespace Quickread

/-! ## Python string primitives -/

/-- Python whitespace class (ASCII part), as used by `str.strip`, `str.split`
and the regex `\s`. -/
def isPySpace (c : Char) : Bool :=
  c = ' ' || c = '\t' || c = '\n' || c = '\r' || c = Char.ofNat 0x0B || c = Char.ofNat 0x0C

/-- Embeds `str.strip()` on a character list. -/
def pyStripL (cs : List Char) : List Char :=
  ((cs.dropWhile isPySpace).reverse.dropWhile isPySpace).reverse

/-- Embeds `str.strip()`. -/
def pyStrip (s : String) : String := ⟨pyStripL s.data⟩

/-- Embeds `str.lower()` (ASCII model). -/
def pyLowerL (cs : List Char) : List Char := cs.map Char.toLower

/-- Split a character list at every separator character, keeping empty
groups (the behaviour of Python `str.split(sep)` for a one-character
separator). -/
def splitGroups (p : Char → Bool) (cs : List Char) : List (List Char) :=
  cs.foldr
    (fun c acc =>
      if p c then [] :: acc
      else
        match acc with
        | g :: gs => (c :: g) :: gs
        | [] => [[c]])
    [[]]

/-- Number of fields of Python `str.split()` (split on whitespace runs,
empty fields discarded). -/
def wordCount (cs : List Char) : Nat :=
  ((splitGroups isPySpace cs).filter (fun g => g ≠ [])).length

/-- Python slicing `s[:n]` (by code point). -/
def pySlice (s : String) (n : Nat) : String := ⟨s.data.take n⟩

/-- Python slicing `s[n:]` (by code point). -/
def pyDrop (s : String) (n : Nat) : String := ⟨s.data.drop n⟩

/-! ## TXT extraction: UTF-8 with Latin-1 fallback -/

/-- Strict UTF-8 decoding of a byte sequence (the behaviour of Python
`bytes.decode('utf-8')`): rejects truncated sequences, stray continuation
bytes, overlong encodings, surrogates and values above U+10FFFF. -/
def utf8Decode? : List Nat → Option (List Char)
  | [] => some []
  | b :: rest =>
    if b < 0x80 then (utf8Decode? rest).map (Char.ofNat b :: ·)
    else if 0xC2 ≤ b ∧ b ≤ 0xDF then
      match rest with
      | b2 :: rest2 =>
        if 0x80 ≤ b2 ∧ b2 ≤ 0xBF then
          (utf8Decode? rest2).map (Char.ofNat ((b - 0xC0) * 64 + (b2 - 0x80)) :: ·)
        else none
      | [] => none
    else if 0xE0 ≤ b ∧ b ≤ 0xEF then
      match rest with
      | b2 :: b3 :: rest3 =>
        if (if b = 0xE0 then 0xA0 else 0x80) ≤ b2 ∧ b2 ≤ (if b = 0xED then 0x9F else 0xBF)
            ∧ 0x80 ≤ b3 ∧ b3 ≤ 0xBF then
          (utf8Decode? rest3).map
            (Char.ofNat ((b - 0xE0) * 4096 + (b2 - 0x80) * 64 + (b3 - 0x80)) :: ·)
        else none
      | _ => none
    else if 0xF0 ≤ b ∧ b ≤ 0xF4 then
      match rest with
      | b2 :: b3 :: b4 :: rest4 =>
        if (if b = 0xF0 then 0x90 else 0x80) ≤ b2 ∧ b2 ≤ (if b = 0xF4 then 0x8F else 0xBF)
            ∧ 0x80 ≤ b3 ∧ b3 ≤ 0xBF ∧ 0x80 ≤ b4 ∧ b4 ≤ 0xBF then
          (utf8Decode? rest4).map
            (Char.ofNat ((b - 0xF0) * 262144 + (b2 - 0x80) * 4096 + (b3 - 0x80) * 64 + (b4 - 0x80)) :: ·)
        else none
      | _ => none
    else none

/-- Embeds `bytes.decode('latin-1')`: each byte maps to the code point of the same
value; total on every byte sequence. -/
def latin1Decode (l : List Nat) : String := ⟨l.map Char.ofNat⟩

/-- Embeds `DocumentProcessor.process_txt`: UTF-8 decode with Latin-1 fallback. -/
def process_txt (file_bytes : List Nat) : Except String String :=
  match utf8Decode? file_bytes with
  | some cs => .ok ⟨cs⟩
  | none => .ok (latin1Decode file_bytes)

/-! ## External library models and the remaining extractors -/

/-- A parsed DOCX file as exposed by python-docx: paragraph texts and, per
table, per row, the cell texts. -/
structure DocxFile where
  paragraphs : List String
  tables : List (List (List String))

/-- A parsed XLSX workbook as exposed by openpyxl: the declared sheet-name
order and, per sheet name, the rows of (stringified) cell values, `none`
for an empty cell. -/
structure XlsxWorkbook where
  sheetnames : List String
  cellRows : String → List (List (Option String))

/-- One archive member as exposed by `zipfile`. -/
structure ZipEntry where
  filename : String
  bytes : List Nat

/-- Oracles for the external parsing libraries: each returns the parsed
shape of the byte buffer, or `.error` when the library raises on a
malformed buffer (for PDF, a page whose text extraction fails is also an
`.error` of the oracle, since `page.extract_text()` raises inside the same
`try`). -/
structure ExternalLibs where
  pdfPages : List Nat → Except String (List String)
  docxDoc : List Nat → Except String DocxFile
  xlsxWb : List Nat → Except String XlsxWorkbook
  zipOpen : List Nat → Except String (List ZipEntry)

/-- Embeds `DocumentProcessor.process_pdf`: concatenate `page.extract_text() + "\n"`
over the pages; wrap any library failure. -/
def process_pdf (libs : ExternalLibs) (file_bytes : List Nat) : Except String String :=
  match libs.pdfPages file_bytes with
  | .ok pages => .ok (pages.foldl (fun t p => t ++ p ++ "\n") "")
  | .error e => .error ("Error processing PDF: " ++ e)

/-- Embeds `DocumentProcessor.process_docx`: paragraph texts each followed by a
newline, then per table all cell texts each followed by a space, with one
newline after each table. -/
def process_docx (libs : ExternalLibs) (file_bytes : List Nat) : Except String String :=
  match libs.docxDoc file_bytes with
  | .ok d =>
    let t1 := d.paragraphs.foldl (fun t p => t ++ p ++ "\n") ""
    .ok (d.tables.foldl
      (fun t tbl =>
        (tbl.foldl (fun t row => row.foldl (fun t cell => t ++ cell ++ " ") t) t) ++ "\n")
      t1)
  | .error e => .error ("Error processing DOCX: " ++ e)

/-- Embeds `" | ".join(str(cell) if cell is not None else "" for cell in row)`. -/
def xlsxRowLine (row : List (Option String)) : String :=
  String.intercalate " | " (row.map (fun c => c.getD ""))

/-- Embeds `DocumentProcessor.process_xlsx`: per sheet a header line, then one line
per row of cell values joined by " | ". -/
def process_xlsx (libs : ExternalLibs) (file_bytes : List Nat) : Except String String :=
  match libs.xlsxWb file_bytes with
  | .ok wb =>
    .ok (wb.sheetnames.foldl
      (fun t name =>
        (wb.cellRows name).foldl (fun t row => t ++ xlsxRowLine row ++ "\n")
          (t ++ "\n=== Sheet: " ++ name ++ " ===\n"))
      "")
  | .error e => .error ("Error processing XLSX: " ++ e)

/-! ## ZIP extraction -/

/-- Embeds `file_info.filename.endswith('/')`. -/
def endsWithSlash (s : String) : Bool :=
  match s.data.getLast? with
  | some c => c = '/'
  | none => false

/-- Embeds `filename.lower().split('.')[-1] if '.' in filename else ''`: the
substring after the last dot of the lowercased name, or `""`. -/
def zipEntryExt (name : String) : String :=
  if name.data.contains '.' then
    ⟨((pyLowerL name.data).reverse.takeWhile (fun c => c ≠ '.')).reverse⟩
  else ""

/-- Embeds `zip_ref.read(name)`: `zipfile` resolves a name through its name→info
map in which later entries shadow earlier ones, so reading returns the
bytes of the last entry bearing that name (`[]` stands for the
unreachable missing-name case). -/
def zipRead (entries : List ZipEntry) (name : String) : List Nat :=
  (((entries.filter (fun e => e.filename = name)).getLast?).map ZipEntry.bytes).getD []

/-- The per-entry dispatch inside `process_zip`, including the inner
`try/except` that turns an extraction failure into a placeholder string. -/
def processZipEntry (libs : ExternalLibs) (ext : String) (content : List Nat) : String :=
  match
    (if ext = "pdf" then process_pdf libs content
     else if ext = "txt" then process_txt content
     else if ext = "docx" then process_docx libs content
     else if ext = "xlsx" then process_xlsx libs content
     else .ok ("[Unsupported file type: ." ++ ext ++ "]")) with
  | .ok t => t
  | .error e => "[Error processing file: " ++ e ++ "]"

/-- Python `dict` insertion: update an existing key in place, otherwise
append the binding at the end. -/
def dictInsert (m : List (String × String)) (k v : String) : List (String × String) :=
  if m.any (fun p => p.1 = k) then m.map (fun p => if p.1 = k then (k, v) else p)
  else m ++ [(k, v)]

/-- The entry loop of `process_zip` over the archive's `filelist`, with
`all` the full entry list used by `zip_ref.read`. -/
def zipFold (libs : ExternalLibs) (all : List ZipEntry) :
    List ZipEntry → List (String × String) → List (String × String)
  | [], acc => acc
  | e :: rest, acc =>
    if endsWithSlash e.filename then zipFold libs all rest acc
    else
      zipFold libs all rest
        (dictInsert acc e.filename
          (processZipEntry libs (zipEntryExt e.filename) (zipRead all e.filename)))

/-- Embeds `DocumentProcessor.process_zip`. -/
def process_zip (libs : ExternalLibs) (file_bytes : List Nat) :
    Except String (List (String × String)) :=
  match libs.zipOpen file_bytes with
  | .ok entries => .ok (zipFold libs entries entries [])
  | .error e => .error ("Error processing ZIP: " ++ e)

/-! ## Dispatcher -/

/-- The `content` payload of a processed document: a text string for the
single-document formats, an ordered path→text mapping for ZIP. -/
inductive DocContent where
  | text (s : String)
  | entries (m : List (String × String))
  deriving DecidableEq

/-- The tagged result dict of `process_document`. -/
structure ProcessedDoc where
  content : DocContent
  format : String
  deriving DecidableEq

/-- Embeds `DocumentProcessor.process_document`: extension dispatch. -/
def process_document (libs : ExternalLibs) (file_bytes : List Nat) (file_extension : String) :
    Except String ProcessedDoc :=
  if file_extension = ".pdf" then (process_pdf libs file_bytes).map (⟨.text ·, "pdf"⟩)
  else if file_extension = ".txt" then (process_txt file_bytes).map (⟨.text ·, "txt"⟩)
  else if file_extension = ".docx" then (process_docx libs file_bytes).map (⟨.text ·, "docx"⟩)
  else if file_extension = ".xlsx" then (process_xlsx libs file_bytes).map (⟨.text ·, "xlsx"⟩)
  else if file_extension = ".zip" then (process_zip libs file_bytes).map (⟨.entries ·, "zip"⟩)
  else .error ("Unsupported file format: " ++ file_extension)

/-! ## Greeting detection

The greeting patterns of `LLMHandler` are five fixed regular expressions
over `\b`-delimited word literals, `\s+` gaps and one optional apostrophe
(`what'?s`).  They are embedded as token sequences matched by a direct
scanner; the alternation in the first pattern is expanded into one token
sequence per alternative.  Greedy matching of `\s+` is exact here because
every token following a gap starts with a non-space character. -/

/-- Regex `\w` (ASCII model). -/
def isWordChar (c : Char) : Bool := c.isAlphanum || c = '_'

/-- One token of a greeting pattern. -/
inductive GTok where
  | lit : List Char → GTok
  | ws : GTok
  | apos : GTok

/-- Match a token sequence at the head of the input, returning the residue. -/
def matchToks : List GTok → List Char → Option (List Char)
  | [], cs => some cs
  | .lit l :: ts, cs =>
    if l.isPrefixOf cs then matchToks ts (cs.drop l.length) else none
  | .ws :: ts, cs =>
    let rest := cs.dropWhile isPySpace
    if rest.length = cs.length then none else matchToks ts rest
  | .apos :: ts, cs =>
    match cs with
    | c :: rest =>
      if c = Char.ofNat 39 then
        match matchToks ts rest with
        | some r => some r
        | none => matchToks ts cs
      else matchToks ts cs
    | [] => matchToks ts cs

/-- Trailing `\b`: the residue starts with a non-word character or is empty. -/
def matchHere (toks : List GTok) (cs : List Char) : Bool :=
  match matchToks toks cs with
  | some [] => true
  | some (c :: _) => !isWordChar c
  | none => false

/-- Embeds `re.search` over all start positions, tracking the previous character
for the leading `\b` (every pattern starts with a word character). -/
def searchB (toks : List GTok) : Option Char → List Char → Bool
  | prev, cs =>
    ((match prev with | none => true | some c => !isWordChar c) && matchHere toks cs) ||
      match cs with
      | [] => false
      | c :: rest => searchB toks (some c) rest

/-- The greeting patterns, alternation expanded. -/
def greetingAlts : List (List GTok) :=
  [[.lit "hi".data], [.lit "hello".data], [.lit "hey".data], [.lit "greetings".data],
   [.lit "good".data, .ws, .lit "morning".data],
   [.lit "good".data, .ws, .lit "afternoon".data],
   [.lit "good".data, .ws, .lit "evening".data],
   [.lit "howdy".data],
   [.lit "how".data, .ws, .lit "are".data, .ws, .lit "you".data],
   [.lit "what".data, .apos, .lit "s".data, .ws, .lit "up".data],
   [.lit "nice".data, .ws, .lit "to".data, .ws, .lit "meet".data],
   [.lit "pleasure".data, .ws, .lit "to".data, .ws, .lit "meet".data]]

/-- Embeds `text.lower().strip()`. -/
def normalizedQuestion (text : String) : List Char := pyStripL (pyLowerL text.data)

/-- Whether any greeting pattern matches somewhere in the text. -/
def greetingMatches (tl : List Char) : Bool :=
  greetingAlts.any (fun toks => searchB toks none tl)

/-- Embeds `LLMHandler.is_greeting`. -/
def is_greeting (text : String) : Bool :=
  let tl := normalizedQuestion text
  if wordCount tl ≤ 5 then greetingMatches tl else false

/-- Embeds `LLMHandler.get_greeting_response` (the source file stores the emoji as
the mojibake characters U+00F0 U+0178 U+2018 U+2039). -/
def greeting_response : String :=
  "Hello! ðŸ‘‹ I'm your document assistant. I'm here to help you analyze and understand your uploaded documents.\n\nYou can ask me questions about:\n- Specific information in your documents\n- Summaries of content\n- Analysis and insights\n- Any clarifications you need\n\nJust ask your question, and I'll do my best to help based on the document content!"

/-! ## Response cleaning

`LLMHandler.clean_response` is a pipeline of regex substitutions; each is
embedded as a recursive pass over the character list that mirrors
left-to-right, non-overlapping `re.sub` scanning. -/

/-- The character class stripped first:
`[​-‍﻿\x00-\x08\x0B-\x0C\x0E-\x1F\x7F]`. -/
def isCtrlStrip (c : Char) : Bool :=
  let n := c.toNat
  (0x200B ≤ n && n ≤ 0x200D) || n = 0xFEFF || n ≤ 0x08 || n = 0x0B || n = 0x0C ||
    (0x0E ≤ n && n ≤ 0x1F) || n = 0x7F

/-- Regex `[0-9a-fA-F]`. -/
def isHexDigitC (c : Char) : Bool :=
  c.isDigit || ('a' ≤ c && c ≤ 'f') || ('A' ≤ c && c ≤ 'F')

/-- Embeds `re.sub(r'\\x[0-9a-fA-F]{2}', '', ·)`: a failed match at a backslash
lets the scan resume at the following character, which cannot itself start
a match, so the scan continues at the third character. -/
def rmHexEscF : Nat → List Char → List Char
  | 0, cs => cs
  | _ + 1, [] => []
  | fuel + 1, '\\' :: 'x' :: a :: b :: rest =>
    if isHexDigitC a && isHexDigitC b then rmHexEscF fuel rest
    else '\\' :: rmHexEscF fuel ('x' :: a :: b :: rest)
  | fuel + 1, c :: rest => c :: rmHexEscF fuel rest

def rmHexEsc (cs : List Char) : List Char := rmHexEscF cs.length cs

/-- Embeds `re.sub(r'\\u[0-9a-fA-F]{4}', '', ·)`. -/
def rmUniEscF : Nat → List Char → List Char
  | 0, cs => cs
  | _ + 1, [] => []
  | fuel + 1, '\\' :: 'u' :: a :: b :: c :: d :: rest =>
    if isHexDigitC a && isHexDigitC b && isHexDigitC c && isHexDigitC d then rmUniEscF fuel rest
    else '\\' :: rmUniEscF fuel ('u' :: a :: b :: c :: d :: rest)
  | fuel + 1, c :: rest => c :: rmUniEscF fuel rest

def rmUniEsc (cs : List Char) : List Char := rmUniEscF cs.length cs

/-- Embeds `re.sub(r'\\[rnt]', '', ·)`. -/
def rmEscRntF : Nat → List Char → List Char
  | 0, cs => cs
  | _ + 1, [] => []
  | fuel + 1, '\\' :: c :: rest =>
    if c = 'r' || c = 'n' || c = 't' then rmEscRntF fuel rest
    else '\\' :: rmEscRntF fuel (c :: rest)
  | fuel + 1, c :: rest => c :: rmEscRntF fuel rest

def rmEscRnt (cs : List Char) : List Char := rmEscRntF cs.length cs

/-- Embeds `re.sub(r'<[^>]+>', '', ·)`, with the fuel argument (instantiated to the
text length, enough for the whole scan) making the recursion structural. -/
def rmHtmlTagsF : Nat → List Char → List Char
  | 0, cs => cs
  | _ + 1, [] => []
  | fuel + 1, '<' :: rest =>
    let inside := rest.takeWhile (fun c => c ≠ '>')
    match rest.dropWhile (fun c => c ≠ '>') with
    | _ :: after =>
      if inside = [] then '<' :: rmHtmlTagsF fuel rest else rmHtmlTagsF fuel after
    | [] => '<' :: rmHtmlTagsF fuel rest
  | fuel + 1, c :: rest => c :: rmHtmlTagsF fuel rest

def rmHtmlTags (cs : List Char) : List Char := rmHtmlTagsF cs.length cs

/-- The backtick character. -/
def btick : Char := Char.ofNat 96

/-- A code-fence marker. -/
def fenceMarker : List Char := [btick, btick, btick]

/-- Embeds `re.sub(r'^```[\w]*\n?', '', ·, flags=re.MULTILINE)`; the flag argument
tracks whether the current position is a line start of the original text,
and the fuel argument (instantiated to the text length) makes the recursion
structural. -/
def rmFenceOpenF : Nat → Bool → List Char → List Char
  | 0, _, cs => cs
  | fuel + 1, lineStart, cs =>
    if lineStart ∧ fenceMarker.isPrefixOf cs then
      match (cs.drop 3).dropWhile isWordChar with
      | '\n' :: r => rmFenceOpenF fuel true r
      | r => rmFenceOpenF fuel false r
    else
      match cs with
      | [] => []
      | c :: rest => c :: rmFenceOpenF fuel (c = '\n') rest

def rmFenceOpen (cs : List Char) : List Char := rmFenceOpenF cs.length true cs

/-- Regex `$` in MULTILINE mode: end of text or just before a newline. -/
def atEol : List Char → Bool
  | [] => true
  | c :: _ => c = '\n'

/-- Embeds `re.sub(r'\n?```$', '', ·, flags=re.MULTILINE)`, fueled like the above. -/
def rmFenceCloseF : Nat → List Char → List Char
  | 0, cs => cs
  | _ + 1, [] => []
  | fuel + 1, c :: rest =>
    if c = '\n' ∧ fenceMarker.isPrefixOf rest ∧ atEol (rest.drop 3) then
      rmFenceCloseF fuel (rest.drop 3)
    else if fenceMarker.isPrefixOf (c :: rest) ∧ atEol ((c :: rest).drop 3) then
      rmFenceCloseF fuel ((c :: rest).drop 3)
    else c :: rmFenceCloseF fuel rest

def rmFenceClose (cs : List Char) : List Char := rmFenceCloseF cs.length cs

/-- Embeds `re.sub(' +', ' ', ·)` (only plain spaces are collapsed): a space
directly followed by another space is dropped, which rewrites every maximal
space run to a single space. -/
def collapseSpaces : List Char → List Char
  | [] => []
  | c :: rest =>
    if c = ' ' ∧ rest.head? = some ' ' then collapseSpaces rest
    else c :: collapseSpaces rest

/-- The line loop: split on `'\n'`, strip each line, collapse space runs in
non-blank lines, keep blank lines blank, re-join with `'\n'`. -/
def cleanLines (cs : List Char) : List Char :=
  List.intercalate ['\n']
    ((splitGroups (fun c => c = '\n') cs).map
      (fun line =>
        let st := pyStripL line
        if st = [] then [] else collapseSpaces st))

/-- Embeds `re.sub(r'\n{3,}', '\n\n', ·)`: a newline followed by at least two more
newlines is dropped, which rewrites every maximal run of three or more
newlines to exactly two. -/
def squeezeNewlines : List Char → List Char
  | [] => []
  | c :: rest =>
    if c = '\n' ∧ rest.take 2 = ['\n', '\n'] then squeezeNewlines rest
    else c :: squeezeNewlines rest

/-- Embeds `LLMHandler.clean_response` (all passes are total, so the `except`
fallback in the source is unreachable). -/
def clean_response (content : String) : String :=
  let cs1 := content.data.filter (fun c => !isCtrlStrip c)
  let cs2 := rmHexEsc cs1
  let cs3 := rmUniEsc cs2
  let cs4 := rmEscRnt cs3
  let cs5 := rmHtmlTags cs4
  let cs6 := rmFenceOpen cs5
  let cs7 := rmFenceClose cs6
  let cs8 := cleanLines cs7
  let cs9 := squeezeNewlines cs8
  ⟨pyStripL cs9⟩

/-! ## Query flow

The remote OpenRouter call is modelled by an oracle from the outgoing
request to a remote outcome; `query_document` additionally returns the
list of remote requests it issued, so "no remote call" is expressible. -/

/-- The fields of the outgoing completion request that the handler
computes: model identifier, assembled prompt, temperature and the fixed
output-token cap. -/
structure LLMRequest where
  model : String
  prompt : String
  temperature : ℚ
  max_tokens : Nat
  deriving DecidableEq

/-- Outcome of the remote call: a 200 response carrying the single message
text, a non-200 response carrying the body, or a network-level failure. -/
inductive RemoteResult where
  | success (content : String)
  | httpError (body : String)
  | netError (msg : String)

/-- The handler's configuration, mirroring `LLMHandler.__init__`. -/
structure LLMHandler where
  api_key : String
  base_url : String
  model : String

/-- The fixed instruction template around the (already truncated) document
body and the question. -/
def promptHead : String :=
  "You are a helpful document analysis assistant. Analyze the following document and answer the user's question.\n\n<document>\n"

def promptMid : String := "\n</document>\n\nUser Question: "

def promptTail : String :=
  "\n\nInstructions:\n- Provide a clear, direct answer based ONLY on the document content\n- Be concise but complete\n- If the information is not in the document, politely say so\n- Use proper formatting with paragraphs for readability\n- Do not include any special characters, escape sequences, or formatting markers"

def buildPrompt (body question : String) : String :=
  promptHead ++ body ++ promptMid ++ question ++ promptTail

/-- Embeds `LLMHandler.query_document`.  Returns the answer-or-error together with
the list of remote requests issued. -/
def query_document (h : LLMHandler) (remote : LLMRequest → RemoteResult)
    (document_content question : String) (temperature : ℚ) :
    Except String String × List LLMRequest :=
  if is_greeting question then (.ok greeting_response, [])
  else if h.api_key = "" then (.error "OpenRouter API key not configured", [])
  else
    let req : LLMRequest :=
      ⟨h.model, buildPrompt (pySlice document_content 8000) question, temperature, 2000⟩
    match remote req with
    | .success raw => (.ok (clean_response raw), [req])
    | .httpError body =>
      (.error ("Error querying LLM: OpenRouter API error: " ++ body), [req])
    | .netError m =>
      (.error ("Error communicating with OpenRouter API: " ++ m), [req])

/-- Embeds `LLMHandler.query_with_context`. -/
def query_with_context (h : LLMHandler) (remote : LLMRequest → RemoteResult)
    (document_content question context : String) (temperature : ℚ) :
    Except String String × List LLMRequest :=
  if is_greeting question then (.ok greeting_response, [])
  else
    let full_content := context ++ "\n\nDocument Content:\n" ++ pySlice document_content 8000
    query_document h remote full_content question temperature

/-! ## Metadata/content store

`utils.py` stores one JSON file per record inside the storage folder; the
file system is modelled as a map from path to stored record, restricted to
the records this module writes.  The content payload type is a parameter
`γ`. -/

/-- The metadata record written by `save_document_metadata` (the wall-clock
timestamp is passed in as `now`). -/
structure DocMetadata where
  document_id : String
  filename : String
  upload_date : String
  file_size : Nat
  deriving DecidableEq

/-- A stored JSON file: either a metadata record or a content record
(round-tripping through `json.dump`/`json.load` is modelled as identity). -/
inductive StoredRecord (γ : Type) where
  | meta (m : DocMetadata)
  | content (c : γ)

/-- The file system visible to `utils.py`: path → stored record. -/
def FileSystem (γ : Type) := String → Option (StoredRecord γ)

def DOCUMENTS_STORAGE_FOLDER : String := "documents_storage"

/-- Embeds `os.path.join(DOCUMENTS_STORAGE_FOLDER, f"{document_id}_metadata.json")`. -/
def get_metadata_path (document_id : String) : String :=
  DOCUMENTS_STORAGE_FOLDER ++ "/" ++ document_id ++ "_metadata.json"

/-- Embeds `os.path.join(DOCUMENTS_STORAGE_FOLDER, f"{document_id}_content.json")`. -/
def get_content_path (document_id : String) : String :=
  DOCUMENTS_STORAGE_FOLDER ++ "/" ++ document_id ++ "_content.json"

/-- Embeds `open(path, 'w')` + `json.dump`. -/
def fsWrite {γ : Type} (fs : FileSystem γ) (p : String) (r : StoredRecord γ) : FileSystem γ :=
  fun q => if q = p then some r else fs q

def save_document_metadata {γ : Type} (document_id filename : String) (file_size : Nat)
    (now : String) (fs : FileSystem γ) : FileSystem γ :=
  fsWrite fs (get_metadata_path document_id) (.meta ⟨document_id, filename, now, file_size⟩)

/-- Embeds `load_document_metadata`: read the metadata file if it exists, else the
explicit not-found signal `none`. -/
def load_document_metadata {γ : Type} (document_id : String) (fs : FileSystem γ) :
    Option (StoredRecord γ) :=
  fs (get_metadata_path document_id)

def save_document_content {γ : Type} (document_id : String) (content : γ)
    (fs : FileSystem γ) : FileSystem γ :=
  fsWrite fs (get_content_path document_id) (.content content)

def load_document_content {γ : Type} (document_id : String) (fs : FileSystem γ) :
    Option (StoredRecord γ) :=
  fs (get_content_path document_id)

/-- Embeds `os.remove`: raises `FileNotFoundError` when the path is absent. -/
def os_remove {γ : Type} (p : String) (fs : FileSystem γ) : Except String (FileSystem γ) :=
  match fs p with
  | some _ => .ok (fun q => if q = p then none else fs q)
  | none => .error "FileNotFoundError"

/-- Embeds `delete_document`: remove each of the two records only if it exists. -/
def delete_document {γ : Type} (document_id : String) (fs : FileSystem γ) :
    Except String (FileSystem γ) :=
  let mp := get_metadata_path document_id
  let cp := get_content_path document_id
  match (if (fs mp).isSome then os_remove mp fs else .ok fs) with
  | .error e => .error e
  | .ok fs1 => if (fs1 cp).isSome then os_remove cp fs1 else .ok fs1

/-! ## Claim-support definitions -/

/-- The allowed top-level extension set. -/
def supportedExts : List String := [".pdf", ".txt", ".docx", ".xlsx", ".zip"]

/-- Wellformedness of an input for a format: the extraction routine for the
given extension succeeds on the buffer. -/
def formatExtractOk (libs : ExternalLibs) (b : List Nat) (ext : String) : Bool :=
  if ext = ".pdf" then (process_pdf libs b).isOk
  else if ext = ".txt" then (process_txt b).isOk
  else if ext = ".docx" then (process_docx libs b).isOk
  else if ext = ".xlsx" then (process_xlsx libs b).isOk
  else if ext = ".zip" then (process_zip libs b).isOk
  else false

/-- Extractor oracles that reject every buffer (an empty/degenerate
environment used to instantiate universally quantified theorems). -/
def noLibs : ExternalLibs :=
  ⟨fun _ => .error "no parser", fun _ => .error "no parser",
   fun _ => .error "no parser", fun _ => .error "no parser"⟩

/-- The page-joining rule exactly as the claim words it: page texts
separated by a single newline (hence no trailing newline). -/
def pdf_pages_joined_claim (pages : List String) : String := String.intercalate "\n" pages

/-- What `process_pdf` actually produces from the page texts: each page's
text followed by a newline. -/
def pdf_pages_text : List String → String
  | [] => ""
  | p :: ps => p ++ "\n" ++ pdf_pages_text ps

/-- Oracles describing a valid one-page PDF whose page text is "page one". -/
def pdfLibsOnePage : ExternalLibs :=
  ⟨fun _ => .ok ["page one"], fun _ => .error "unused",
   fun _ => .error "unused", fun _ => .error "unused"⟩

/-- A remote endpoint whose message text contains a literal backslash-n
escape sequence and stray surrounding whitespace. -/
def mockRemote : LLMRequest → RemoteResult := fun _ => .success "  Revenue was \\n$5M.  "

/-- The mapping entry the ZIP claim predicts for a non-directory archive
member: key its path, value the dispatched extraction of its own bytes
(placeholders for unsupported extensions and per-entry failures are built
into `processZipEntry`). -/
def zipExpectedEntry (libs : ExternalLibs) (e : ZipEntry) : String × String :=
  (e.filename, processZipEntry libs (zipEntryExt e.filename) e.bytes)

/-- Oracles for the ZIP scenario: an archive holding a well-formed TXT
entry, an unsupported `.exe` entry, a directory entry and a PDF entry
whose bytes the PDF parser rejects. -/
def zipLibsScenario : ExternalLibs :=
  ⟨fun _ => .error "bad pdf header", fun _ => .error "unused", fun _ => .error "unused",
   fun _ => .ok [⟨"a.txt", [104, 105]⟩, ⟨"tool.exe", [77, 90]⟩,
                 ⟨"folder/", []⟩, ⟨"broken.pdf", [37]⟩]⟩

/-! ## Theorems -/

/-- C3: for every byte sequence `process_txt` returns a string and never
raises; on UTF-8 decode failure it returns the (total) Latin-1 decode; the
empty buffer yields the empty string. -/
theorem txt_extraction_total (b : List Nat) :
    (∃ s, process_txt b = .ok s)
    ∧ (utf8Decode? b = none → process_txt b = .ok (latin1Decode b))
    ∧ process_txt [] = .ok "" := by
  refine ⟨?_, ?_, rfl⟩
  · cases h : utf8Decode? b with
    | some cs => exact ⟨⟨cs⟩, by simp [process_txt, h]⟩
    | none => exact ⟨latin1Decode b, by simp [process_txt, h]⟩
  · intro h
    simp [process_txt, h]

/-- Witness for C3 at the invalid-UTF-8 buffer `[0xFF]`. -/
theorem txt_extraction_total_witness :
    (∃ s, process_txt [255] = .ok s)
    ∧ process_txt [255] = .ok (latin1Decode [255])
    ∧ process_txt [] = .ok "" :=
  ⟨(txt_extraction_total [255]).1,
   (txt_extraction_total [255]).2.1 (by decide),
   (txt_extraction_total [255]).2.2⟩

/-- C4: a question that, lower-cased and trimmed, has at most 5 words and
matches a greeting pattern makes `query_document` return the canned
greeting for every document, temperature, handler and remote endpoint,
issuing no remote request. -/
theorem greeting_short_circuit (h : LLMHandler) (remote : LLMRequest → RemoteResult)
    (doc q : String) (temp : ℚ)
    (hle : wordCount (normalizedQuestion q) ≤ 5)
    (hm : greetingMatches (normalizedQuestion q) = true) :
    query_document h remote doc q temp = (.ok greeting_response, []) := by
  have hg : is_greeting q = true := by simp [is_greeting, hle, hm]
  simp [query_document, hg]

/-- Witness for C4: `answer("", "hello there", 0.7)` is the canned greeting
with no remote request. -/
theorem greeting_short_circuit_witness :
    wordCount (normalizedQuestion "hello there") ≤ 5
    ∧ greetingMatches (normalizedQuestion "hello there") = true
    ∧ query_document ⟨"", "https://openrouter.ai/api/v1", "openrouter/auto"⟩
        (fun _ => .success "") "" "hello there" (7 / 10) = (.ok greeting_response, []) :=
  ⟨by decide, by decide,
   greeting_short_circuit _ _ _ _ _ (by decide) (by decide)⟩

/-- C9: the greeting short-circuit precedes the API-key check: with an
empty key a greeting question still gets the canned greeting, and only a
non-greeting question hits the missing-key ConfigurationError. -/
theorem greeting_before_key_check (h : LLMHandler) (remote : LLMRequest → RemoteResult)
    (doc q : String) (temp : ℚ) (hkey : h.api_key = "") :
    (is_greeting q = true → query_document h remote doc q temp = (.ok greeting_response, []))
    ∧ (is_greeting q = false →
        query_document h remote doc q temp = (.error "OpenRouter API key not configured", [])) := by
  constructor
  · intro hg
    simp [query_document, hg]
  · intro hg
    simp [query_document, hg, hkey]

/-- Witness for C9 with an unconfigured key: canned greeting for "hello",
ConfigurationError for a non-greeting question. -/
theorem greeting_before_key_check_witness :
    query_document ⟨"", "https://openrouter.ai/api/v1", "openrouter/auto"⟩
        (fun _ => .success "") "" "hello" (7 / 10) = (.ok greeting_response, [])
    ∧ query_document ⟨"", "https://openrouter.ai/api/v1", "openrouter/auto"⟩
        (fun _ => .success "") "" "list the totals" (7 / 10)
      = (.error "OpenRouter API key not configured", []) :=
  ⟨(greeting_before_key_check _ _ "" "hello" _ rfl).1 (by decide),
   (greeting_before_key_check _ _ "" "list the totals" _ rfl).2 (by decide)⟩

/-- C6: with the remote endpoint returning the message text
`"  Revenue was \n$5M.  "` (a literal backslash-n, not a newline), the
query for the non-greeting question returns exactly the cleaned text
`"Revenue was $5M."`. -/
theorem revenue_cleaning :
    (query_document ⟨"test-key", "https://openrouter.ai/api/v1", "openrouter/auto"⟩
        mockRemote "Total revenue in 2024 was $5M." "What is the total revenue?" (7 / 10)).1
      = .ok "Revenue was $5M."
    ∧ clean_response "  Revenue was \\n$5M.  " = "Revenue was $5M." :=
  ⟨rfl, by decide⟩

/-- C5: for a non-greeting question (with a configured key) and a document
longer than 8000 characters, the single outbound request embeds exactly
the document's first 8000 characters. -/
theorem prompt_truncation (h : LLMHandler) (remote : LLMRequest → RemoteResult)
    (doc q : String) (temp : ℚ)
    (hg : is_greeting q = false) (hk : h.api_key ≠ "") (hlen : 8000 < doc.length) :
    (query_document h remote doc q temp).2
        = [⟨h.model, buildPrompt (pySlice doc 8000) q, temp, 2000⟩]
    ∧ (pySlice doc 8000).data = doc.data.take 8000
    ∧ (pySlice doc 8000).length = 8000 := by
  refine ⟨?_, rfl, ?_⟩
  · simp only [query_document, hg, Bool.false_eq_true, if_false, if_neg hk]
    cases remote ⟨h.model, buildPrompt (pySlice doc 8000) q, temp, 2000⟩ <;> rfl
  · have hd : doc.length = doc.data.length := rfl
    have hp : (pySlice doc 8000).length = (doc.data.take 8000).length := rfl
    rw [hp, List.length_take]
    omega

/-- Witness for C5 at an 8001-character document. -/
theorem prompt_truncation_witness :
    (query_document ⟨"test-key", "https://openrouter.ai/api/v1", "openrouter/auto"⟩
        (fun _ => .success "") ⟨List.replicate 8001 'a'⟩ "summarize" (7 / 10)).2
        = [⟨"openrouter/auto",
            buildPrompt (pySlice ⟨List.replicate 8001 'a'⟩ 8000) "summarize", 7 / 10, 2000⟩]
    ∧ (pySlice (⟨List.replicate 8001 'a'⟩ : String) 8000).data
        = (⟨List.replicate 8001 'a'⟩ : String).data.take 8000
    ∧ (pySlice (⟨List.replicate 8001 'a'⟩ : String) 8000).length = 8000 :=
  prompt_truncation _ _ _ _ _ (by decide) (by decide)
    (by
      have h1 : (⟨List.replicate 8001 'a'⟩ : String).length
          = (List.replicate 8001 'a').length := rfl
      rw [h1, List.length_replicate]
      omega)

/-- C10: `query_with_context` truncates the document to 8000 characters,
prepends the context and the label, and the combination is truncated to
8000 characters again, so with a non-empty context strictly fewer than
8000 characters of the document reach the outbound prompt. -/
theorem context_double_truncation (h : LLMHandler) (remote : LLMRequest → RemoteResult)
    (doc q ctx : String) (temp : ℚ)
    (hg : is_greeting q = false) (hk : h.api_key ≠ "") :
    (query_with_context h remote doc q ctx temp).2
        = [⟨h.model,
            buildPrompt (pySlice (ctx ++ "\n\nDocument Content:\n" ++ pySlice doc 8000) 8000) q,
            temp, 2000⟩]
    ∧ (pySlice (ctx ++ "\n\nDocument Content:\n" ++ pySlice doc 8000) 8000).data
        = (ctx.data ++ "\n\nDocument Content:\n".data).take 8000
            ++ doc.data.take (8000 - (ctx.length + 20))
    ∧ (ctx ≠ "" → 8000 - (ctx.length + 20) < 8000) := by
  refine ⟨?_, ?_, fun _ => by omega⟩
  · simp only [query_with_context, hg, Bool.false_eq_true, if_false,
      query_document, if_neg hk]
    cases remote _ <;> rfl
  · show ((ctx ++ "\n\nDocument Content:\n" ++ pySlice doc 8000).data).take 8000 = _
    rw [String.data_append, String.data_append]
    have hds : (pySlice doc 8000).data = doc.data.take 8000 := rfl
    rw [hds, List.take_append_eq_append_take, List.take_take]
    have h20 : ("\n\nDocument Content:\n".data).length = 20 := by decide
    have hcl : ctx.length = ctx.data.length := rfl
    have hmin : min (8000 - ((ctx.data ++ "\n\nDocument Content:\n".data)).length) 8000
        = 8000 - (ctx.length + 20) := by
      rw [List.length_append, h20, hcl]
      omega
    rw [hmin]

/-- Witness for C10 with the one-character context "c". -/
theorem context_double_truncation_witness :
    (query_with_context ⟨"test-key", "https://openrouter.ai/api/v1", "openrouter/auto"⟩
        (fun _ => .success "") "doc body" "explain" "c" (7 / 10)).2
        = [⟨"openrouter/auto",
            buildPrompt (pySlice ("c" ++ "\n\nDocument Content:\n" ++ pySlice "doc body" 8000) 8000)
              "explain",
            7 / 10, 2000⟩]
    ∧ (pySlice ("c" ++ "\n\nDocument Content:\n" ++ pySlice "doc body" 8000) 8000).data
        = (("c" : String).data ++ "\n\nDocument Content:\n".data).take 8000
            ++ ("doc body" : String).data.take (8000 - (("c" : String).length + 20))
    ∧ (("c" : String) ≠ "" → 8000 - (("c" : String).length + 20) < 8000) :=
  context_double_truncation _ _ _ _ _ _ (by decide) (by decide)

theorem pdf_foldl_eq (pages : List String) (acc : String) :
    pages.foldl (fun t p => t ++ p ++ "\n") acc = acc ++ pdf_pages_text pages := by
  induction pages generalizing acc with
  | nil => simp [pdf_pages_text, String.append_empty]
  | cons p ps ih =>
    simp only [List.foldl_cons, pdf_pages_text]
    rw [ih, String.append_assoc, String.append_assoc, String.append_assoc]

/-- C7 counterexample: on a valid one-page PDF whose page text is
"page one", `process_pdf` yields "page one\n" — each page's text is
followed by a newline, not newline-separated as the claim words it. -/
theorem pdf_trailing_newline_cex :
    pdfLibsOnePage.pdfPages [] = .ok ["page one"]
    ∧ process_pdf pdfLibsOnePage [] = .ok "page one\n"
    ∧ process_pdf pdfLibsOnePage [] ≠ .ok (pdf_pages_joined_claim ["page one"]) := by
  refine ⟨rfl, rfl, ?_⟩
  intro hcontra
  have h2 : process_pdf pdfLibsOnePage [] = .ok "page one\n" := rfl
  rw [h2] at hcontra
  have h3 : ("page one\n" : String) = pdf_pages_joined_claim ["page one"] := by
    injection hcontra
  exact absurd h3 (by decide)

/-- C7 (amended): for every valid PDF buffer `process_pdf` returns the
page texts in page order, each page's text followed by a single newline
(so the pages are newline-separated with one trailing newline); it raises
an ExtractionError when the PDF library fails on the container or a page. -/
theorem pdf_extraction (libs : ExternalLibs) (b : List Nat) :
    (∀ pages, libs.pdfPages b = .ok pages →
      process_pdf libs b = .ok (pdf_pages_text pages))
    ∧ (∀ m, libs.pdfPages b = .error m →
      process_pdf libs b = .error ("Error processing PDF: " ++ m)) := by
  constructor
  · intro pages hp
    simp only [process_pdf, hp]
    rw [pdf_foldl_eq]
    simp
  · intro m hm
    simp [process_pdf, hm]

/-- Witness for C7's amended claim on a two-page PDF and a rejected buffer. -/
theorem pdf_extraction_witness :
    process_pdf ⟨fun _ => .ok ["a", "b"], noLibs.docxDoc, noLibs.xlsxWb, noLibs.zipOpen⟩ []
        = .ok (pdf_pages_text ["a", "b"])
    ∧ process_pdf noLibs [] = .error ("Error processing PDF: " ++ "no parser") :=
  ⟨(pdf_extraction ⟨fun _ => .ok ["a", "b"], noLibs.docxDoc, noLibs.xlsxWb, noLibs.zipOpen⟩ []).1
      ["a", "b"] rfl,
   (pdf_extraction noLibs []).2 "no parser" rfl⟩

/-- C1: the dispatcher returns a tagged result whose format is the
extension without its dot, with string content for the single-document
formats and a mapping for zip, whenever the format's extractor succeeds;
any extension outside the supported set raises UnsupportedFormatError
regardless of the buffer. -/
theorem dispatch_contract (libs : ExternalLibs) (b : List Nat) (ext : String) :
    (ext ∉ supportedExts →
      process_document libs b ext = .error ("Unsupported file format: " ++ ext))
    ∧ (ext ∈ supportedExts → formatExtractOk libs b ext = true →
      ∃ r, process_document libs b ext = .ok r
        ∧ r.format = pyDrop ext 1
        ∧ (ext = ".zip" → ∃ m, r.content = .entries m)
        ∧ (ext ≠ ".zip" → ∃ s, r.content = .text s)) := by
  constructor
  · intro hne
    simp only [supportedExts, List.mem_cons, List.not_mem_nil, or_false, not_or] at hne
    obtain ⟨h1, h2, h3, h4, h5⟩ := hne
    simp [process_document, h1, h2, h3, h4, h5]
  · intro hmem hok
    simp only [supportedExts, List.mem_cons, List.not_mem_nil, or_false] at hmem
    rcases hmem with h | h | h | h | h <;> subst h
    · cases hp : process_pdf libs b with
      | ok t =>
        exact ⟨⟨.text t, "pdf"⟩, by simp [process_document, hp, Except.map], rfl,
          fun hzip => absurd hzip (by decide), fun _ => ⟨t, rfl⟩⟩
      | error e => simp [formatExtractOk, hp, Except.isOk, Except.toBool] at hok
    · cases hp : process_txt b with
      | ok t =>
        exact ⟨⟨.text t, "txt"⟩, by simp [process_document, hp, Except.map], rfl,
          fun hzip => absurd hzip (by decide), fun _ => ⟨t, rfl⟩⟩
      | error e => simp [formatExtractOk, hp, Except.isOk, Except.toBool] at hok
    · cases hp : process_docx libs b with
      | ok t =>
        exact ⟨⟨.text t, "docx"⟩, by simp [process_document, hp, Except.map], rfl,
          fun hzip => absurd hzip (by decide), fun _ => ⟨t, rfl⟩⟩
      | error e => simp [formatExtractOk, hp, Except.isOk, Except.toBool] at hok
    · cases hp : process_xlsx libs b with
      | ok t =>
        exact ⟨⟨.text t, "xlsx"⟩, by simp [process_document, hp, Except.map], rfl,
          fun hzip => absurd hzip (by decide), fun _ => ⟨t, rfl⟩⟩
      | error e => simp [formatExtractOk, hp, Except.isOk, Except.toBool] at hok
    · cases hp : process_zip libs b with
      | ok m =>
        exact ⟨⟨.entries m, "zip"⟩, by simp [process_document, hp, Except.map], rfl,
          fun _ => ⟨m, rfl⟩, fun hne => absurd rfl hne⟩
      | error e => simp [formatExtractOk, hp, Except.isOk, Except.toBool] at hok

/-- Witness for C1: ".exe" is rejected for any buffer; ".txt" on the empty
buffer succeeds with a text payload tagged "txt". -/
theorem dispatch_contract_witness :
    process_document noLibs [] ".exe" = .error ("Unsupported file format: " ++ ".exe")
    ∧ ∃ r, process_document noLibs [] ".txt" = .ok r
        ∧ r.format = pyDrop ".txt" 1
        ∧ ((".txt" : String) = ".zip" → ∃ m, r.content = .entries m)
        ∧ ((".txt" : String) ≠ ".zip" → ∃ s, r.content = .text s) :=
  ⟨(dispatch_contract noLibs [] ".exe").1 (by decide),
   (dispatch_contract noLibs [] ".txt").2 (by decide) (by decide)⟩

theorem meta_path_ne_content_path (i j : String) :
    get_metadata_path i ≠ get_content_path j := by
  intro h
  have hr := congrArg (fun s : String => s.data.reverse.take 13) h
  simp only [get_metadata_path, get_content_path, String.data_append, List.reverse_append,
    List.append_assoc] at hr
  rw [List.take_append_of_le_length (by decide),
    List.take_append_of_le_length (by decide)] at hr
  exact absurd hr (by decide)

theorem delete_document_found {γ : Type} (id : String) (fs : FileSystem γ)
    (r1 r2 : StoredRecord γ)
    (hm : fs (get_metadata_path id) = some r1)
    (hc : fs (get_content_path id) = some r2) :
    delete_document id fs
      = .ok (fun q => if q = get_content_path id then none
          else if q = get_metadata_path id then none else fs q) := by
  have hne' : get_content_path id ≠ get_metadata_path id :=
    fun h => meta_path_ne_content_path id id h.symm
  simp only [delete_document, os_remove, hm, Option.isSome_some, if_true, if_neg hne', hc]

theorem delete_document_absent {γ : Type} (id : String) (fs : FileSystem γ)
    (hm : fs (get_metadata_path id) = none)
    (hc : fs (get_content_path id) = none) :
    delete_document id fs = .ok fs := by
  simp [delete_document, os_remove, hm, hc]

/-- C8: after saving metadata and content for an id, both loads return the
stored records; deleting then makes both loads report not-found; deleting
an id with no stored records succeeds without raising. -/
theorem store_lifecycle {γ : Type} (id filename : String) (size : Nat) (now : String)
    (c : γ) (fs : FileSystem γ) :
    load_document_metadata id (save_document_content id c (save_document_metadata id filename size now fs))
        = some (.meta ⟨id, filename, now, size⟩)
    ∧ load_document_content id (save_document_content id c (save_document_metadata id filename size now fs))
        = some (.content c)
    ∧ (∃ fs2,
        delete_document id (save_document_content id c (save_document_metadata id filename size now fs))
            = .ok fs2
        ∧ load_document_metadata id fs2 = none
        ∧ load_document_content id fs2 = none)
    ∧ (∀ fs0 : FileSystem γ,
        load_document_metadata id fs0 = none → load_document_content id fs0 = none →
        delete_document id fs0 = .ok fs0) := by
  have hne : get_metadata_path id ≠ get_content_path id := meta_path_ne_content_path id id
  have h1 : load_document_metadata id
      (save_document_content id c (save_document_metadata id filename size now fs))
      = some (.meta ⟨id, filename, now, size⟩) := by
    simp [load_document_metadata, save_document_content, save_document_metadata, fsWrite, hne]
  have h2 : load_document_content id
      (save_document_content id c (save_document_metadata id filename size now fs))
      = some (.content c) := by
    simp [load_document_content, save_document_content, save_document_metadata, fsWrite]
  refine ⟨h1, h2, ?_, ?_⟩
  · refine ⟨_, delete_document_found id _ _ _ h1 h2, ?_, ?_⟩
    · simp [load_document_metadata, hne]
    · simp [load_document_content]
  · intro fs0 hm hc
    exact delete_document_absent id fs0 hm hc

/-- Witness for C8 at concrete values over an empty store with `Nat`
content payloads. -/
theorem store_lifecycle_witness :
    load_document_metadata "doc1"
        (save_document_content "doc1" (42 : Nat)
          (save_document_metadata "doc1" "a.txt" 3 "2026-10-12T00:00:00" (fun _ => none)))
      = some (.meta ⟨"doc1", "a.txt", "2026-10-12T00:00:00", 3⟩)
    ∧ load_document_content "doc1"
        (save_document_content "doc1" (42 : Nat)
          (save_document_metadata "doc1" "a.txt" 3 "2026-10-12T00:00:00" (fun _ => none)))
      = some (.content 42)
    ∧ (∃ fs2,
        delete_document "doc1"
            (save_document_content "doc1" (42 : Nat)
              (save_document_metadata "doc1" "a.txt" 3 "2026-10-12T00:00:00" (fun _ => none)))
          = .ok fs2
        ∧ load_document_metadata "doc1" fs2 = none
        ∧ load_document_content "doc1" fs2 = none)
    ∧ delete_document "doc1" ((fun _ => none) : FileSystem Nat) = .ok (fun _ => none) :=
  ⟨(store_lifecycle "doc1" "a.txt" 3 "2026-10-12T00:00:00" 42 (fun _ => none)).1,
   (store_lifecycle "doc1" "a.txt" 3 "2026-10-12T00:00:00" 42 (fun _ => none)).2.1,
   (store_lifecycle "doc1" "a.txt" 3 "2026-10-12T00:00:00" 42 (fun _ => none)).2.2.1,
   (store_lifecycle "doc1" "a.txt" 3 "2026-10-12T00:00:00" 42 (fun _ => none)).2.2.2
      (fun _ => none) rfl rfl⟩

theorem filter_filename_eq_of_nodup {entries : List ZipEntry} {e : ZipEntry}
    (hnd : (entries.map ZipEntry.filename).Nodup) (hmem : e ∈ entries) :
    entries.filter (fun x => x.filename = e.filename) = [e] := by
  induction entries with
  | nil => cases hmem
  | cons a rest ih =>
    rw [List.map_cons, List.nodup_cons] at hnd
    rcases List.mem_cons.mp hmem with he | he
    · subst he
      rw [List.filter_cons, if_pos (by simp)]
      have hrest : rest.filter (fun x => x.filename = e.filename) = [] := by
        apply List.filter_eq_nil_iff.mpr
        intro x hx
        simp only [decide_eq_true_eq]
        intro hEq
        exact hnd.1 (hEq ▸ List.mem_map_of_mem ZipEntry.filename hx)
      rw [hrest]
    · have hne : a.filename ≠ e.filename := by
        intro hEq
        exact hnd.1 (hEq ▸ List.mem_map_of_mem ZipEntry.filename he)
      rw [List.filter_cons, if_neg (by simpa using hne)]
      exact ih hnd.2 he

theorem zipRead_eq {entries : List ZipEntry} {e : ZipEntry}
    (hnd : (entries.map ZipEntry.filename).Nodup) (hmem : e ∈ entries) :
    zipRead entries e.filename = e.bytes := by
  unfold zipRead
  rw [filter_filename_eq_of_nodup hnd hmem]
  rfl

theorem dictInsert_fresh {m : List (String × String)} {k : String} (v : String)
    (hf : ∀ p ∈ m, p.1 ≠ k) :
    dictInsert m k v = m ++ [(k, v)] := by
  unfold dictInsert
  rw [if_neg]
  simp only [List.any_eq_true, decide_eq_true_eq, not_exists]
  intro p hp
  exact hf p hp.1 hp.2

theorem zipFold_append (libs : ExternalLibs) (all : List ZipEntry) (es : List ZipEntry) :
    ∀ acc : List (String × String),
      (es.map ZipEntry.filename).Nodup →
      (∀ e ∈ es, endsWithSlash e.filename = false → ∀ p ∈ acc, p.1 ≠ e.filename) →
      zipFold libs all es acc
        = acc ++ (es.filter (fun e => !endsWithSlash e.filename)).map
            (fun e => (e.filename, processZipEntry libs (zipEntryExt e.filename) (zipRead all e.filename))) := by
  induction es with
  | nil => intro acc _ _; simp [zipFold]
  | cons e rest ih =>
    intro acc hnd hfresh
    rw [List.map_cons, List.nodup_cons] at hnd
    by_cases hdir : endsWithSlash e.filename
    · rw [zipFold, if_pos hdir, List.filter_cons, if_neg (by simp [hdir])]
      exact ih acc hnd.2 (fun e' he' hd' p hp => hfresh e' (List.mem_cons_of_mem e he') hd' p hp)
    · have hdir' : endsWithSlash e.filename = false := by
        exact Bool.not_eq_true _ ▸ eq_false_of_ne_true hdir
      rw [zipFold, if_neg hdir,
        dictInsert_fresh _ (hfresh e (List.mem_cons_self e rest) hdir'),
        List.filter_cons, if_pos (by simp [hdir']), List.map_cons]
      rw [ih (acc ++ [(e.filename, processZipEntry libs (zipEntryExt e.filename) (zipRead all e.filename))])
        hnd.2 ?fresh]
      · rw [List.append_assoc]
        rfl
      case fresh =>
        intro e' he' hd' p hp
        rcases List.mem_append.mp hp with hpa | hpe
        · exact hfresh e' (List.mem_cons_of_mem e he') hd' p hpa
        · have hp1 : p = (e.filename, processZipEntry libs (zipEntryExt e.filename) (zipRead all e.filename)) := by
            simpa using hpe
          subst hp1
          intro hEq
          apply hnd.1
          have hEq' : e.filename = e'.filename := hEq
          exact hEq' ▸ List.mem_map_of_mem ZipEntry.filename he' 

/-- C2: for an archive that opens, whose entry paths are distinct,
`process_zip` returns the mapping that, in original entry order and
skipping directory entries, sends each path to the dispatched extraction
of that entry's bytes — the extractor output for pdf/txt/docx/xlsx
extensions, the unsupported-type placeholder otherwise, and the
error placeholder when the entry's extraction fails — while a failure to
open the archive itself is the only fatal ExtractionError. -/
theorem zip_extraction (libs : ExternalLibs) (b : List Nat) :
    (∀ entries, libs.zipOpen b = .ok entries →
      (entries.map ZipEntry.filename).Nodup →
      process_zip libs b
        = .ok ((entries.filter (fun e => !endsWithSlash e.filename)).map (zipExpectedEntry libs)))
    ∧ (∀ m, libs.zipOpen b = .error m →
      process_zip libs b = .error ("Error processing ZIP: " ++ m)) := by
  constructor
  · intro entries hopen hnd
    simp only [process_zip, hopen]
    rw [zipFold_append libs entries entries [] hnd (by simp)]
    rw [List.nil_append]
    refine congrArg Except.ok (List.map_congr_left ?_)
    intro e he
    have hmem : e ∈ entries := List.mem_of_mem_filter he
    unfold zipExpectedEntry
    rw [zipRead_eq hnd hmem]
  · intro m hm
    simp [process_zip, hm]

/-- Witness for C2 on an archive with a TXT entry, an unsupported `.exe`
entry, a directory entry and a corrupt PDF entry. -/
theorem zip_extraction_witness :
    process_zip zipLibsScenario []
      = .ok ((([⟨"a.txt", [104, 105]⟩, ⟨"tool.exe", [77, 90]⟩,
               ⟨"folder/", []⟩, ⟨"broken.pdf", [37]⟩] : List ZipEntry).filter
          (fun e => !endsWithSlash e.filename)).map (zipExpectedEntry zipLibsScenario)) :=
  (zip_extraction zipLibsScenario []).1 _ rfl (by decide)

end Quickread
